import Mathlib

/-!
Verification development for the DCA trading system.

The definitions below are a shallow embedding of the relevant parts of the
repository:

* `SafetyValidator.validate_trading_decision` and its helper checks
  (openai-agents-dca/safety_validator.py);
* `BinanceExecutor._normalize_price`, `BinanceExecutor._normalize_quantity`
  and `BinanceExecutor.execute_actions` (openai-agents-dca/binance_executor.py);
* `execute_research_plan` (openai-agents-dca/dca_agents/researcher.py);
* the validation/execution gate of `AutonomousDCASystem.run`
  (openai-agents-dca/run_autonomous_dca.py);
* `validate_deployment_amounts`, `run_dca_session` and
  `DCASession.was_successful` (dca-simple/utils.py, dca_simple.py, schemas.py).

Python floats are modelled as exact rationals (`ℚ`); Python `round` is
modelled as round-half-to-even (`pyRound`), which is Python 3 semantics.
Error-message strings carry no behaviour, so error lists are modelled with
inductive error codes, preserving which check produced which entry and in
which order.
-/

namespace DCA

/-! ## Safety validator (openai-agents-dca/safety_validator.py)

`validate_trading_decision` receives a list of action dicts with fields
`type`, `asset`, `price`, `amount_usd`.  Actions are modelled as a total
record, so the `_validate_action_structure` check (presence of all four
dict keys) is identically true and is not represented. -/

structure TradeAction where
  type : String
  asset : String
  price : ℚ
  amount_usd : ℚ
deriving DecidableEq

structure OpenOrder where
  symbol : String
deriving DecidableEq

/-- The slice of `intelligence` that the validator reads:
`portfolio.usdt.free`, `btc.price`, `ada.price`, `open_orders`. -/
structure Intelligence where
  usdtFree : ℚ
  btcPrice : ℚ
  adaPrice : ℚ
  openOrders : List OpenOrder
deriving DecidableEq

def MAX_ORDERS_PER_ASSET : ℕ := 3

def MAX_TOTAL_ORDERS : ℕ := 5

def MAX_EXPOSURE_PCT : ℚ := 50

def PRICE_DEVIATION_PCT : ℚ := 5

def MIN_ORDER_VALUE_USD : ℚ := 10

/-- Error codes for the strings produced by the per-action checks. -/
inductive CheckError where
  | tooManyOrdersForAsset
  | tooManyTotalOrders
  | unknownAsset
  | priceDeviation
  | buyAboveMarket
  | sellBelowMarket
  | belowMinValue
deriving DecidableEq

/-- Error codes for entries of the final `errors` list: per-action errors are
prefixed with the 1-based action index, the exposure and balance checks add
unprefixed entries. -/
inductive VError where
  | action (i : ℕ) (e : CheckError)
  | exposureExceeded
  | insufficientBalance
deriving DecidableEq

/-- Embeds `sum(1 for o in self.open_orders if o['symbol'] == asset)` -/
def countOrdersForAsset (orders : List OpenOrder) (asset : String) : ℕ :=
  (orders.filter (fun o => o.symbol == asset)).length

/-- Embeds `SafetyValidator._validate_order_count` -/
def validateOrderCount (v : Intelligence) (a : TradeAction) : List CheckError :=
  (if MAX_ORDERS_PER_ASSET ≤ countOrdersForAsset v.openOrders a.asset then
      [CheckError.tooManyOrdersForAsset]
    else [])
    ++ (if MAX_TOTAL_ORDERS ≤ v.openOrders.length then
          [CheckError.tooManyTotalOrders]
        else [])

/-- Body of `SafetyValidator._validate_price` once the current market price
for the action's asset has been selected.  The deviation check and the
buy-above / sell-below (elif) checks accumulate independently, as in the
source. -/
def priceChecksAgainst (currentPrice : ℚ) (a : TradeAction) : List CheckError :=
  (if PRICE_DEVIATION_PCT < |(a.price - currentPrice) / currentPrice * 100| then
      [CheckError.priceDeviation]
    else [])
    ++ (if a.type = "PLACE_LIMIT_BUY" ∧ currentPrice < a.price then
          [CheckError.buyAboveMarket]
        else if a.type = "PLACE_LIMIT_SELL" ∧ a.price < currentPrice then
          [CheckError.sellBelowMarket]
        else [])

/-- Embeds `SafetyValidator._validate_price` -/
def validatePrice (v : Intelligence) (a : TradeAction) : List CheckError :=
  if a.asset = "BTCUSDT" then priceChecksAgainst v.btcPrice a
  else if a.asset = "ADAUSDT" then priceChecksAgainst v.adaPrice a
  else [CheckError.unknownAsset]

/-- Embeds `SafetyValidator._validate_order_size` -/
def validateOrderSize (a : TradeAction) : List CheckError :=
  if a.amount_usd < MIN_ORDER_VALUE_USD then [CheckError.belowMinValue] else []

/-- The three per-action sub-validators, in the order the main loop runs
them: order count, price, order size. -/
def perActionChecks (v : Intelligence) (a : TradeAction) : List CheckError :=
  validateOrderCount v a ++ validatePrice v a ++ validateOrderSize a

/-- The `for i, action in enumerate(actions, 1)` loop of
`validate_trading_decision`: each action's check errors, tagged with its
1-based index. -/
def actionErrorsFrom (v : Intelligence) : ℕ → List TradeAction → List VError
  | _, [] => []
  | i, a :: rest =>
      (perActionChecks v a).map (VError.action i) ++ actionErrorsFrom v (i + 1) rest

/-- Embeds `total_usd = sum(action['amount_usd'] for action in actions)` -/
def totalUSD (actions : List TradeAction) : ℚ :=
  (actions.map TradeAction.amount_usd).sum

/-- Embeds `exposure_pct = (total_usd / available_usdt * 100) if available_usdt > 0 else 0` -/
def exposurePct (v : Intelligence) (actions : List TradeAction) : ℚ :=
  if 0 < v.usdtFree then totalUSD actions / v.usdtFree * 100 else 0

/-- Embeds `SafetyValidator._validate_total_exposure` -/
def validateTotalExposure (v : Intelligence) (actions : List TradeAction) : List VError :=
  if MAX_EXPOSURE_PCT < exposurePct v actions then [VError.exposureExceeded] else []

/-- Prefix test on character lists, used to model Python's `in` on strings. -/
def isPrefixList : List Char → List Char → Bool
  | [], _ => true
  | _ :: _, [] => false
  | a :: as, b :: bs => a == b && isPrefixList as bs

/-- Does `sub` occur at some position of the character list? -/
def strContainsAux (sub : List Char) : List Char → Bool
  | [] => isPrefixList sub []
  | c :: rest => isPrefixList sub (c :: rest) || strContainsAux sub rest

/-- Python's substring membership `sub in t`. -/
def strContains (t sub : String) : Bool :=
  strContainsAux sub.toList t.toList

/-- Python's `'BUY' in action['type']` substring test. -/
def typeMentionsBuy (t : String) : Bool :=
  strContains t "BUY"

/-- Embeds `total_usd_needed = sum(action['amount_usd'] for action in actions if 'BUY' in action['type'])` -/
def neededUSD (actions : List TradeAction) : ℚ :=
  ((actions.filter (fun a => typeMentionsBuy a.type)).map TradeAction.amount_usd).sum

/-- Embeds `SafetyValidator._validate_balance` -/
def validateBalance (v : Intelligence) (actions : List TradeAction) : List VError :=
  if v.usdtFree < neededUSD actions then [VError.insufficientBalance] else []

/-- Embeds `SafetyValidator.validate_trading_decision`: runs the per-action checks,
then total exposure, then balance, and returns `(is_valid, errors)` with
`is_valid = (len(errors) == 0)`. -/
def validateTradingDecision (v : Intelligence) (actions : List TradeAction) :
    Bool × List VError :=
  let errs :=
    actionErrorsFrom v 1 actions
      ++ validateTotalExposure v actions ++ validateBalance v actions
  (errs.isEmpty, errs)

/-! Spec-level statements of the individual limits, written as standalone
predicates so the validator can be compared against them. -/

/-- Limit 1 of §4.3 as the code checks it: the count of already-open orders
for the action's asset has reached the per-asset cap, or the total count of
open orders has reached the total cap. -/
def violatesOrderCount (v : Intelligence) (a : TradeAction) : Prop :=
  MAX_ORDERS_PER_ASSET ≤ countOrdersForAsset v.openOrders a.asset
    ∨ MAX_TOTAL_ORDERS ≤ v.openOrders.length

/-- Limit 3 of §4.3 against a given current price: deviation beyond the band,
a buy limit above market, or a sell limit below market. -/
def bandViolation (currentPrice : ℚ) (a : TradeAction) : Prop :=
  PRICE_DEVIATION_PCT < |(a.price - currentPrice) / currentPrice * 100|
    ∨ (a.type = "PLACE_LIMIT_BUY" ∧ currentPrice < a.price)
    ∨ (a.type = "PLACE_LIMIT_SELL" ∧ a.price < currentPrice)

/-- Limit 3 of §4.3 dispatched on the asset; an unrecognised asset is itself
a violation. -/
def violatesPriceRule (v : Intelligence) (a : TradeAction) : Prop :=
  if a.asset = "BTCUSDT" then bandViolation v.btcPrice a
  else if a.asset = "ADAUSDT" then bandViolation v.adaPrice a
  else True

/-- Limit 4 of §4.3: order notional below the minimum order value. -/
def violatesMinValue (a : TradeAction) : Prop :=
  a.amount_usd < MIN_ORDER_VALUE_USD

/-- Limit 2 of §4.3 as the code computes it: exposure percentage over the cap. -/
def violatesExposure (v : Intelligence) (actions : List TradeAction) : Prop :=
  MAX_EXPOSURE_PCT < exposurePct v actions

/-- The balance check of the validator (not one of the five §4.3 limits):
the summed notional of BUY actions exceeds free USDT. -/
def violatesBalance (v : Intelligence) (actions : List TradeAction) : Prop :=
  v.usdtFree < neededUSD actions

/-- Modelled from the spec: hard limit 5 of §4.3, "no two limit orders at an
identical price for the same asset".  No function of the repository's
deterministic code implements this check; it appears only in the
risk-validator agent prompt (dca_agents/decision.py). -/
def hasDuplicateLimitPrice : List TradeAction → Bool
  | [] => false
  | a :: rest =>
      rest.any (fun b => a.asset == b.asset && a.price == b.price)
        || hasDuplicateLimitPrice rest

lemma if_singleton_eq_nil_iff {α : Type} {c : Prop} [Decidable c] {e : α} :
    (if c then [e] else []) = [] ↔ ¬c := by
  split_ifs with h <;> simp [h]

lemma validateOrderCount_eq_nil_iff (v : Intelligence) (a : TradeAction) :
    validateOrderCount v a = [] ↔ ¬violatesOrderCount v a := by
  unfold validateOrderCount violatesOrderCount
  rw [List.append_eq_nil, if_singleton_eq_nil_iff, if_singleton_eq_nil_iff]
  tauto

lemma priceChecksAgainst_eq_nil_iff (c : ℚ) (a : TradeAction) :
    priceChecksAgainst c a = [] ↔ ¬bandViolation c a := by
  unfold priceChecksAgainst bandViolation
  rw [List.append_eq_nil, if_singleton_eq_nil_iff]
  constructor
  · rintro ⟨h1, h2⟩
    split_ifs at h2 with hb hs
    all_goals try simp at h2
    all_goals exact fun hor => hor.elim h1 (fun hor2 => hor2.elim hb hs)
  · intro h
    rw [not_or, not_or] at h
    refine ⟨h.1, ?_⟩
    split_ifs with hb hs
    · exact absurd hb h.2.1
    · exact absurd hs h.2.2
    · rfl

lemma validatePrice_eq_nil_iff (v : Intelligence) (a : TradeAction) :
    validatePrice v a = [] ↔ ¬violatesPriceRule v a := by
  unfold validatePrice violatesPriceRule
  split_ifs with h1 h2
  · exact priceChecksAgainst_eq_nil_iff _ _
  · exact priceChecksAgainst_eq_nil_iff _ _
  · simp

lemma validateOrderSize_eq_nil_iff (a : TradeAction) :
    validateOrderSize a = [] ↔ ¬violatesMinValue a := by
  unfold validateOrderSize violatesMinValue
  exact if_singleton_eq_nil_iff

lemma perActionChecks_eq_nil_iff (v : Intelligence) (a : TradeAction) :
    perActionChecks v a = []
      ↔ ¬(violatesOrderCount v a ∨ violatesPriceRule v a ∨ violatesMinValue a) := by
  unfold perActionChecks
  rw [List.append_eq_nil, List.append_eq_nil, validateOrderCount_eq_nil_iff,
    validatePrice_eq_nil_iff, validateOrderSize_eq_nil_iff]
  tauto

lemma actionErrorsFrom_eq_nil_iff (v : Intelligence) (actions : List TradeAction) :
    ∀ i, actionErrorsFrom v i actions = [] ↔ ∀ a ∈ actions, perActionChecks v a = [] := by
  induction actions with
  | nil => intro i; simp [actionErrorsFrom]
  | cons a rest ih =>
      intro i
      rw [actionErrorsFrom, List.append_eq_nil, List.map_eq_nil_iff, ih (i + 1)]
      simp

lemma validateTotalExposure_eq_nil_iff (v : Intelligence) (actions : List TradeAction) :
    validateTotalExposure v actions = [] ↔ ¬violatesExposure v actions := by
  unfold validateTotalExposure violatesExposure
  exact if_singleton_eq_nil_iff

lemma validateBalance_eq_nil_iff (v : Intelligence) (actions : List TradeAction) :
    validateBalance v actions = [] ↔ ¬violatesBalance v actions := by
  unfold validateBalance violatesBalance
  exact if_singleton_eq_nil_iff

/-- C1 (amended): the validator's verdict is invalid (`Tripwire`) exactly
when one of the checks it actually implements fires: for some action the
order-count caps, the price-deviation band (including the buy-above /
sell-below direction rule, or an unrecognised asset), or the minimum order
value; or, over the whole set, the aggregate exposure cap or the
insufficient-USDT-balance check.  The fifth §4.3 limit — no two limit orders
at an identical price for the same asset — is not among the implemented
checks (see the counterexample). -/
theorem validate_false_iff_violation (v : Intelligence) (actions : List TradeAction) :
    (validateTradingDecision v actions).1 = false
      ↔ ((∃ a ∈ actions,
            violatesOrderCount v a ∨ violatesPriceRule v a ∨ violatesMinValue a)
          ∨ violatesExposure v actions ∨ violatesBalance v actions) := by
  unfold validateTradingDecision
  simp only [List.isEmpty_eq_false_iff_exists_mem]
  rw [← not_iff_not]
  push_neg
  constructor
  · intro h
    have hnil :
        actionErrorsFrom v 1 actions ++ validateTotalExposure v actions
            ++ validateBalance v actions = [] := by
      by_contra hne
      obtain ⟨e, he⟩ := List.exists_mem_of_ne_nil _ hne
      exact h e he
    rw [List.append_eq_nil, List.append_eq_nil] at hnil
    obtain ⟨⟨h1, h2⟩, h3⟩ := hnil
    rw [actionErrorsFrom_eq_nil_iff] at h1
    rw [validateTotalExposure_eq_nil_iff] at h2
    rw [validateBalance_eq_nil_iff] at h3
    refine ⟨fun a ha => ?_, h2, h3⟩
    have := (perActionChecks_eq_nil_iff v a).mp (h1 a ha)
    tauto
  · rintro ⟨h1, h2, h3⟩ e he
    have hnil :
        actionErrorsFrom v 1 actions ++ validateTotalExposure v actions
            ++ validateBalance v actions = [] := by
      rw [List.append_eq_nil, List.append_eq_nil]
      refine ⟨⟨?_, (validateTotalExposure_eq_nil_iff v actions).mpr h2⟩,
        (validateBalance_eq_nil_iff v actions).mpr h3⟩
      rw [actionErrorsFrom_eq_nil_iff]
      intro a ha
      rw [perActionChecks_eq_nil_iff]
      have := h1 a ha
      tauto
    rw [hnil] at he
    exact absurd he (List.not_mem_nil e)

/-- Market state for the concrete counterexample: 10000 free USDT, BTC at
50000, ADA at 1, no open orders. -/
def exIntel : Intelligence :=
  { usdtFree := 10000, btcPrice := 50000, adaPrice := 1, openOrders := [] }

/-- Two BTCUSDT limit buys at the identical price 49000 (2% below market),
100 USD each: fine on every implemented check, but a duplicate pair. -/
def exDupActions : List TradeAction :=
  [ { type := "PLACE_LIMIT_BUY", asset := "BTCUSDT", price := 49000, amount_usd := 100 },
    { type := "PLACE_LIMIT_BUY", asset := "BTCUSDT", price := 49000, amount_usd := 100 } ]

/-- C1 counterexample: an action set whose only §4.3 violation is two limit
orders at an identical price for the same asset is accepted by
`validate_trading_decision` — the claimed "Tripwire iff some of the five
limits is violated" fails, because the duplicate-price limit is never
checked. -/
theorem duplicate_price_set_passes_validation :
    hasDuplicateLimitPrice exDupActions = true
      ∧ (validateTradingDecision exIntel exDupActions).1 = true := by
  constructor
  · rfl
  · norm_num [validateTradingDecision, actionErrorsFrom, perActionChecks,
      validateOrderCount, validatePrice, priceChecksAgainst, validateOrderSize,
      validateTotalExposure, exposurePct, totalUSD, validateBalance, neededUSD,
      countOrdersForAsset, exIntel, exDupActions, MAX_ORDERS_PER_ASSET,
      MAX_TOTAL_ORDERS, MAX_EXPOSURE_PCT, PRICE_DEVIATION_PCT,
      MIN_ORDER_VALUE_USD, typeMentionsBuy, strContains, strContainsAux,
      isPrefixList]
    decide

/-- C10: the exposure check's division by free USDT is guarded — with free
USDT zero or negative the computed exposure percentage is defined as 0 and
the maximum-exposure limit can never fire, whatever the actions' total
notional; and since the balance check sums only actions whose type contains
"BUY", a sell-only action set with zero free USDT passes the balance check
as well. -/
theorem zero_usdt_exposure_guard (v : Intelligence) (actions : List TradeAction) :
    (v.usdtFree ≤ 0 →
        exposurePct v actions = 0 ∧ validateTotalExposure v actions = [])
      ∧ (v.usdtFree = 0 →
          (∀ a ∈ actions, typeMentionsBuy a.type = false) →
          validateBalance v actions = []) := by
  constructor
  · intro h
    have hexp : exposurePct v actions = 0 := by
      unfold exposurePct
      rw [if_neg (not_lt.mpr h)]
    refine ⟨hexp, ?_⟩
    unfold validateTotalExposure
    rw [hexp, if_neg]
    norm_num [MAX_EXPOSURE_PCT]
  · intro h0 hsell
    have hfil : actions.filter (fun a => typeMentionsBuy a.type) = [] := by
      rw [List.filter_eq_nil_iff]
      intro a ha
      simp [hsell a ha]
    unfold validateBalance neededUSD
    rw [hfil]
    simp [h0]

/-- Market state with zero free USDT for the C10 witness. -/
def exSellIntel : Intelligence :=
  { usdtFree := 0, btcPrice := 50000, adaPrice := 1, openOrders := [] }

/-- A sell-only action set with a large notional for the C10 witness. -/
def exSellActions : List TradeAction :=
  [ { type := "PLACE_LIMIT_SELL", asset := "BTCUSDT", price := 51000,
      amount_usd := 10000 } ]

/-- C10 witness: at zero free USDT, a 10000-USD sell-only set yields
exposure 0 and passes both the exposure and the balance checks. -/
theorem zero_usdt_exposure_guard_witness :
    exposurePct exSellIntel exSellActions = 0
      ∧ validateTotalExposure exSellIntel exSellActions = []
      ∧ validateBalance exSellIntel exSellActions = [] := by
  have h := zero_usdt_exposure_guard exSellIntel exSellActions
  exact ⟨(h.1 (by norm_num [exSellIntel])).1, (h.1 (by norm_num [exSellIntel])).2,
    h.2 (by norm_num [exSellIntel]) (by decide)⟩

/-! ## Order normalizer (openai-agents-dca/binance_executor.py)

`_normalize_price` and `_normalize_quantity`, with the exchange's
`PRICE_FILTER` and `LOT_SIZE` filter parameters made explicit.  Python's
built-in `round` is round-half-to-even, modelled by `pyRound`. -/

structure PriceFilter where
  tickSize : ℚ
  minPrice : ℚ
  maxPrice : ℚ
deriving DecidableEq

structure LotSizeFilter where
  stepSize : ℚ
  minQty : ℚ
deriving DecidableEq

/-- Python 3 `round` to an integer: round half to even. -/
def pyRound (x : ℚ) : ℤ :=
  if x - ⌊x⌋ < 1 / 2 then ⌊x⌋
  else if 1 / 2 < x - ⌊x⌋ then ⌊x⌋ + 1
  else if 2 ∣ ⌊x⌋ then ⌊x⌋ else ⌊x⌋ + 1

/-- Embeds `BinanceExecutor._normalize_price`: round the price to the nearest tick,
then clamp into `[min_price, max_price]`. -/
def normalizePrice (pf : PriceFilter) (price : ℚ) : ℚ :=
  if (pyRound (price / pf.tickSize) : ℚ) * pf.tickSize < pf.minPrice then pf.minPrice
  else if pf.maxPrice < (pyRound (price / pf.tickSize) : ℚ) * pf.tickSize then pf.maxPrice
  else (pyRound (price / pf.tickSize) : ℚ) * pf.tickSize

/-- Embeds `BinanceExecutor._normalize_quantity`: floor the quantity to the step
size (`quantity // step_size * step_size`); if the result is below
`min_qty`, use `min_qty` — unconditionally, with no budget test. -/
def normalizeQuantity (ls : LotSizeFilter) (quantity : ℚ) : ℚ :=
  if (⌊quantity / ls.stepSize⌋ : ℚ) * ls.stepSize < ls.minQty then ls.minQty
  else (⌊quantity / ls.stepSize⌋ : ℚ) * ls.stepSize

lemma pyRound_intCast (k : ℤ) : pyRound (k : ℚ) = k := by
  unfold pyRound
  rw [Int.floor_intCast]
  rw [if_pos (by norm_num)]

lemma pyRound_near (x : ℚ) : |((pyRound x : ℤ) : ℚ) - x| ≤ 1 / 2 := by
  have h0 : (⌊x⌋ : ℚ) ≤ x := Int.floor_le x
  have h1 : x < ⌊x⌋ + 1 := Int.lt_floor_add_one x
  unfold pyRound
  split_ifs with hlt hgt hev
  · rw [abs_le]
    constructor <;> linarith
  · push_cast
    rw [abs_le]
    constructor <;> linarith
  · rw [abs_le]
    constructor <;> linarith
  · push_cast
    rw [abs_le]
    constructor <;> linarith

lemma floor_step_le (ls : LotSizeFilter) (hs : 0 < ls.stepSize) (q : ℚ) :
    (⌊q / ls.stepSize⌋ : ℚ) * ls.stepSize ≤ q := by
  calc (⌊q / ls.stepSize⌋ : ℚ) * ls.stepSize
      ≤ q / ls.stepSize * ls.stepSize :=
        mul_le_mul_of_nonneg_right (Int.floor_le _) hs.le
    _ = q := div_mul_cancel₀ q hs.ne'

/-- C3 (amended): when the floored quantity falls below `min_qty`, the
normalizer raises it to `min_qty` unconditionally — there is no notional
budget test and no rejection path. -/
theorem quantity_below_min_raised (ls : LotSizeFilter) (q : ℚ)
    (h : (⌊q / ls.stepSize⌋ : ℚ) * ls.stepSize < ls.minQty) :
    normalizeQuantity ls q = ls.minQty := by
  unfold normalizeQuantity
  rw [if_pos h]

/-- C3 witness: with `step_size = 0.00001`, `min_qty = 0.0001` the raw
quantity `0.00005` floors to `0.00005 < min_qty` and is raised to `min_qty`. -/
theorem quantity_below_min_raised_witness :
    normalizeQuantity ⟨1 / 100000, 1 / 10000⟩ (5 / 100000) = 1 / 10000 :=
  quantity_below_min_raised _ _ (by norm_num)

/-- C3 counterexample: at the claim's own scenario — `step_size = 0.00001`,
`min_qty = 0.0001`, `raw_quantity = 0.000043` — the order is not rejected:
it is enlarged to `min_qty = 0.0001`, more than double the requested
quantity. -/
theorem below_min_order_not_rejected :
    normalizeQuantity ⟨1 / 100000, 1 / 10000⟩ (43 / 1000000) = 1 / 10000 := by
  norm_num [normalizeQuantity]

/-- C4 (amended): whenever the floored quantity is at least `min_qty`, the
normalized quantity equals `floor(raw / step) * step`, is an exact integer
multiple of `step_size`, and never exceeds the raw quantity.  (Below
`min_qty` the result is `min_qty` instead — see the counterexample.) -/
theorem normalizeQuantity_floor_spec (ls : LotSizeFilter) (q : ℚ)
    (hs : 0 < ls.stepSize)
    (hmin : ls.minQty ≤ (⌊q / ls.stepSize⌋ : ℚ) * ls.stepSize) :
    normalizeQuantity ls q = (⌊q / ls.stepSize⌋ : ℚ) * ls.stepSize
      ∧ (∃ k : ℤ, normalizeQuantity ls q = (k : ℚ) * ls.stepSize)
      ∧ normalizeQuantity ls q ≤ q := by
  have heq : normalizeQuantity ls q = (⌊q / ls.stepSize⌋ : ℚ) * ls.stepSize := by
    unfold normalizeQuantity
    rw [if_neg (not_lt.mpr hmin)]
  refine ⟨heq, ⟨⌊q / ls.stepSize⌋, heq⟩, ?_⟩
  rw [heq]
  exact floor_step_le ls hs q

/-- C4 witness: `step_size = 0.1`, `min_qty = 0.1`, raw `0.25` floors to
`0.2`, an exact step multiple not exceeding the raw quantity. -/
theorem normalizeQuantity_floor_spec_witness :
    normalizeQuantity ⟨1 / 10, 1 / 10⟩ (1 / 4) = 1 / 5
      ∧ normalizeQuantity ⟨1 / 10, 1 / 10⟩ (1 / 4) ≤ 1 / 4 := by
  have h := normalizeQuantity_floor_spec ⟨1 / 10, 1 / 10⟩ (1 / 4) (by norm_num) (by norm_num)
  refine ⟨?_, h.2.2⟩
  rw [h.1]
  norm_num

/-- C4 counterexample: at `step_size = 0.00001`, `min_qty = 0.0001`,
`raw = 0.000043`, the floored value is `0.00004` but the normalizer returns
something different — and strictly larger than the raw quantity, refuting
both `legal = floor(raw/step)*step` and `legal ≤ raw` for inputs below
`min_qty`. -/
theorem quantity_exceeds_raw_below_min :
    (⌊(43 / 1000000 : ℚ) / (1 / 100000)⌋ : ℚ) * (1 / 100000) = 1 / 25000
      ∧ normalizeQuantity ⟨1 / 100000, 1 / 10000⟩ (43 / 1000000) ≠ 1 / 25000
      ∧ (43 / 1000000 : ℚ) < normalizeQuantity ⟨1 / 100000, 1 / 10000⟩ (43 / 1000000) := by
  norm_num [normalizeQuantity]

/-- C5: the normalized price is the raw price rounded to the nearest tick
(within half a tick — round-to-nearest, not floor), the pre-clamp value is
an exact integer multiple of the tick size, the final result is that value
clamped into `[min_price, max_price]`, and on the concrete scenario
`tick_size = 0.01`, `raw_price = 89517.3456` the legal price is `89517.35`. -/
theorem normalizePrice_round_spec (pf : PriceFilter) (price : ℚ)
    (ht : 0 < pf.tickSize) :
    (∃ k : ℤ, (pyRound (price / pf.tickSize) : ℚ) * pf.tickSize = (k : ℚ) * pf.tickSize)
      ∧ |(pyRound (price / pf.tickSize) : ℚ) * pf.tickSize - price| ≤ pf.tickSize / 2
      ∧ normalizePrice pf price =
          (if (pyRound (price / pf.tickSize) : ℚ) * pf.tickSize < pf.minPrice then pf.minPrice
            else if pf.maxPrice < (pyRound (price / pf.tickSize) : ℚ) * pf.tickSize then pf.maxPrice
            else (pyRound (price / pf.tickSize) : ℚ) * pf.tickSize)
      ∧ normalizePrice ⟨1 / 100, 1 / 100, 1000000⟩ (895173456 / 10000) = 8951735 / 100 := by
  refine ⟨⟨pyRound (price / pf.tickSize), rfl⟩, ?_, rfl, ?_⟩
  · have hxt : price / pf.tickSize * pf.tickSize = price := div_mul_cancel₀ price ht.ne'
    calc |(pyRound (price / pf.tickSize) : ℚ) * pf.tickSize - price|
        = |((pyRound (price / pf.tickSize) : ℚ) - price / pf.tickSize) * pf.tickSize| := by
          rw [sub_mul, hxt]
      _ = |(pyRound (price / pf.tickSize) : ℚ) - price / pf.tickSize| * |pf.tickSize| :=
          abs_mul _ _
      _ = |(pyRound (price / pf.tickSize) : ℚ) - price / pf.tickSize| * pf.tickSize := by
          rw [abs_of_pos ht]
      _ ≤ 1 / 2 * pf.tickSize :=
          mul_le_mul_of_nonneg_right (pyRound_near _) ht.le
      _ = pf.tickSize / 2 := by ring
  · norm_num [normalizePrice, pyRound]

/-- C5 witness: the round-to-nearest bound and the concrete scenario, at
`tick_size = 0.01`. -/
theorem normalizePrice_round_spec_witness :
    |(pyRound ((895173456 / 10000 : ℚ) / (1 / 100)) : ℚ) * (1 / 100) - 895173456 / 10000|
        ≤ (1 / 100) / 2
      ∧ normalizePrice ⟨1 / 100, 1 / 100, 1000000⟩ (895173456 / 10000) = 8951735 / 100 := by
  have h := normalizePrice_round_spec ⟨1 / 100, 1 / 100, 1000000⟩ (895173456 / 10000)
    (by norm_num)
  exact ⟨h.2.1, h.2.2.2⟩

lemma normalizeQuantity_idem (ls : LotSizeFilter) (hs : 0 < ls.stepSize) (q : ℚ) :
    normalizeQuantity ls (normalizeQuantity ls q) = normalizeQuantity ls q := by
  by_cases h1 : (⌊q / ls.stepSize⌋ : ℚ) * ls.stepSize < ls.minQty
  · have e1 : normalizeQuantity ls q = ls.minQty := by
      unfold normalizeQuantity
      rw [if_pos h1]
    rw [e1]
    by_cases h2 : (⌊ls.minQty / ls.stepSize⌋ : ℚ) * ls.stepSize < ls.minQty
    · unfold normalizeQuantity
      rw [if_pos h2]
    · have hle := floor_step_le ls hs ls.minQty
      have heq : (⌊ls.minQty / ls.stepSize⌋ : ℚ) * ls.stepSize = ls.minQty :=
        le_antisymm hle (not_lt.mp h2)
      unfold normalizeQuantity
      rw [if_neg h2, heq]
  · have e1 : normalizeQuantity ls q = (⌊q / ls.stepSize⌋ : ℚ) * ls.stepSize := by
      unfold normalizeQuantity
      rw [if_neg h1]
    rw [e1]
    have hdiv : (⌊q / ls.stepSize⌋ : ℚ) * ls.stepSize / ls.stepSize = (⌊q / ls.stepSize⌋ : ℚ) :=
      mul_div_cancel_right₀ _ hs.ne'
    unfold normalizeQuantity
    rw [hdiv, Int.floor_intCast, if_neg h1]

lemma normalizePrice_fixed (pf : PriceFilter) (ht : 0 < pf.tickSize) (k : ℤ) (y : ℚ)
    (hy : y = (k : ℚ) * pf.tickSize) (h1 : pf.minPrice ≤ y) (h2 : y ≤ pf.maxPrice) :
    normalizePrice pf y = y := by
  have hdiv : y / pf.tickSize = (k : ℚ) := by
    rw [hy, mul_div_cancel_right₀ _ ht.ne']
  unfold normalizePrice
  rw [hdiv, pyRound_intCast, ← hy, if_neg (not_lt.mpr h1), if_neg (not_lt.mpr h2)]

lemma normalizePrice_idem (pf : PriceFilter) (ht : 0 < pf.tickSize)
    (hmin : ∃ a : ℤ, pf.minPrice = (a : ℚ) * pf.tickSize)
    (hmax : ∃ b : ℤ, pf.maxPrice = (b : ℚ) * pf.tickSize)
    (hmm : pf.minPrice ≤ pf.maxPrice) (p : ℚ) :
    normalizePrice pf (normalizePrice pf p) = normalizePrice pf p := by
  obtain ⟨a, ha⟩ := hmin
  obtain ⟨b, hb⟩ := hmax
  by_cases h1 : (pyRound (p / pf.tickSize) : ℚ) * pf.tickSize < pf.minPrice
  · have e : normalizePrice pf p = pf.minPrice := by
      unfold normalizePrice
      rw [if_pos h1]
    rw [e]
    exact normalizePrice_fixed pf ht a _ ha le_rfl hmm
  · by_cases h2 : pf.maxPrice < (pyRound (p / pf.tickSize) : ℚ) * pf.tickSize
    · have e : normalizePrice pf p = pf.maxPrice := by
        unfold normalizePrice
        rw [if_neg h1, if_pos h2]
      rw [e]
      exact normalizePrice_fixed pf ht b _ hb hmm le_rfl
    · have e : normalizePrice pf p = (pyRound (p / pf.tickSize) : ℚ) * pf.tickSize := by
        unfold normalizePrice
        rw [if_neg h1, if_neg h2]
      rw [e]
      exact normalizePrice_fixed pf ht (pyRound (p / pf.tickSize)) _ rfl
        (not_lt.mp h1) (not_lt.mp h2)

/-- C6 (amended): quantity normalization is idempotent for every input
(positive step size); price normalization is idempotent for every input
provided `min_price` and `max_price` are themselves integer multiples of
`tick_size` with `min_price ≤ max_price` — without that proviso the
min-clamp branch breaks idempotence (see the counterexample). -/
theorem normalizer_idempotent (ls : LotSizeFilter) (pf : PriceFilter)
    (hs : 0 < ls.stepSize) (ht : 0 < pf.tickSize)
    (hmin : ∃ a : ℤ, pf.minPrice = (a : ℚ) * pf.tickSize)
    (hmax : ∃ b : ℤ, pf.maxPrice = (b : ℚ) * pf.tickSize)
    (hmm : pf.minPrice ≤ pf.maxPrice) :
    (∀ q, normalizeQuantity ls (normalizeQuantity ls q) = normalizeQuantity ls q)
      ∧ ∀ p, normalizePrice pf (normalizePrice pf p) = normalizePrice pf p :=
  ⟨normalizeQuantity_idem ls hs, normalizePrice_idem pf ht hmin hmax hmm⟩

/-- C6 witness: idempotence at `step_size = min_qty = 0.1` on `0.37` and at
`tick_size = 0.01`, `min_price = 0.01`, `max_price = 10000` on `0.123`. -/
theorem normalizer_idempotent_witness :
    normalizeQuantity ⟨1 / 10, 1 / 10⟩ (normalizeQuantity ⟨1 / 10, 1 / 10⟩ (37 / 100))
        = normalizeQuantity ⟨1 / 10, 1 / 10⟩ (37 / 100)
      ∧ normalizePrice ⟨1 / 100, 1 / 100, 10000⟩
            (normalizePrice ⟨1 / 100, 1 / 100, 10000⟩ (123 / 1000))
          = normalizePrice ⟨1 / 100, 1 / 100, 10000⟩ (123 / 1000) := by
  have h := normalizer_idempotent ⟨1 / 10, 1 / 10⟩ ⟨1 / 100, 1 / 100, 10000⟩
    (by norm_num) (by norm_num) ⟨1, by norm_num⟩ ⟨1000000, by norm_num⟩ (by norm_num)
  exact ⟨h.1 _, h.2 _⟩

/-- C6 counterexample: with `tick_size = 1` but `min_price = 0.6` not a tick
multiple, `normalize(0.2)` clamps to `0.6`, yet `normalize(0.6)` rounds to
`1` — `normalize(normalize(0.2)) ≠ normalize(0.2)`, so price normalization
is not idempotent for every input as claimed. -/
theorem price_normalizer_not_idempotent :
    normalizePrice ⟨1, 3 / 5, 100⟩ (1 / 5) = 3 / 5
      ∧ normalizePrice ⟨1, 3 / 5, 100⟩ (normalizePrice ⟨1, 3 / 5, 100⟩ (1 / 5)) = 1
      ∧ ((1 : ℚ) ≠ 3 / 5) := by
  have e1 : normalizePrice ⟨1, 3 / 5, 100⟩ (1 / 5) = 3 / 5 := by
    norm_num [normalizePrice, pyRound]
  refine ⟨e1, ?_, by norm_num⟩
  rw [e1]
  norm_num [normalizePrice, pyRound]

/-! ## Research fan-out (openai-agents-dca/dca_agents/researcher.py)

`execute_research_plan` awaits the K query tasks as they complete,
appending each successful `ResearchSummary` and skipping (only logging)
each failed task, then sorts the survivors by descending recency score
(`results.sort(key=lambda r: (-r.recency_score))`).  The oracle calls are
modelled by their outcomes, one per query in completion order. -/

structure ResearchSummary where
  query : String
  recencyScore : ℤ
deriving DecidableEq

/-- Ascending order on the Python sort key `-r.recency_score`. -/
def byRecencyKey (a b : ResearchSummary) : Prop :=
  -a.recencyScore ≤ -b.recencyScore

instance : DecidableRel byRecencyKey :=
  fun a b => inferInstanceAs (Decidable (-a.recencyScore ≤ -b.recencyScore))

instance : IsTotal ResearchSummary byRecencyKey :=
  ⟨fun a b => le_total (-a.recencyScore) (-b.recencyScore)⟩

instance : IsTrans ResearchSummary byRecencyKey :=
  ⟨fun _ _ _ hab hbc => le_trans hab hbc⟩

/-- The `for task in asyncio.as_completed(tasks)` loop: keep the successful
results in completion order, drop the failures. -/
def collectCompleted : List (Except String ResearchSummary) → List ResearchSummary
  | [] => []
  | Except.ok r :: rest => r :: collectCompleted rest
  | Except.error _ :: rest => collectCompleted rest

def isOkOutcome : Except String ResearchSummary → Bool
  | Except.ok _ => true
  | Except.error _ => false

/-- Embeds `execute_research_plan`: collect the completed summaries, sort by
descending recency, and return them — its only exit path is this `return`,
whatever the number of failures. -/
def execute_research_plan (outcomes : List (Except String ResearchSummary)) :
    List ResearchSummary :=
  List.insertionSort byRecencyKey (collectCompleted outcomes)

lemma collectCompleted_length (outcomes : List (Except String ResearchSummary)) :
    (collectCompleted outcomes).length = (outcomes.filter isOkOutcome).length := by
  induction outcomes with
  | nil => rfl
  | cons o rest ih =>
      cases o with
      | ok r => simp [collectCompleted, isOkOutcome, List.filter_cons, ih]
      | error e => simp [collectCompleted, isOkOutcome, List.filter_cons, ih]

lemma filter_ok_add_filter_fail (outcomes : List (Except String ResearchSummary)) :
    (outcomes.filter isOkOutcome).length
        + (outcomes.filter (fun o => !isOkOutcome o)).length = outcomes.length :=
  (List.length_eq_length_filter_add isOkOutcome).symm

lemma collectCompleted_all_fail (outcomes : List (Except String ResearchSummary))
    (h : ∀ o ∈ outcomes, isOkOutcome o = false) : collectCompleted outcomes = [] := by
  induction outcomes with
  | nil => rfl
  | cons o rest ih =>
      cases o with
      | ok r =>
          have := h _ (List.mem_cons_self _ _)
          simp [isOkOutcome] at this
      | error e =>
          exact ih fun o ho => h o (List.mem_cons_of_mem _ ho)

/-- C7 (amended): for K queries with F individual failures the fan-out
returns exactly K − F summaries — partial success is a success — but when
all K queries fail it returns the empty list through the same normal
`return`, with no hard failure and no `DataUnavailable` report. -/
theorem research_fanout_counts (outcomes : List (Except String ResearchSummary)) :
    (execute_research_plan outcomes).length
        = outcomes.length - (outcomes.filter (fun o => !isOkOutcome o)).length
      ∧ ((∀ o ∈ outcomes, isOkOutcome o = false) → execute_research_plan outcomes = []) := by
  constructor
  · rw [execute_research_plan, List.length_insertionSort, collectCompleted_length,
      ← filter_ok_add_filter_fail outcomes]
    omega
  · intro h
    rw [execute_research_plan, collectCompleted_all_fail outcomes h]
    rfl

/-- C7 witness: three queries with one failure yield exactly two summaries;
a two-query plan whose queries both fail yields the empty list as a normal
result. -/
theorem research_fanout_counts_witness :
    (execute_research_plan
        [Except.ok ⟨"etf flows", 5⟩, Except.error "timeout", Except.ok ⟨"fed", 9⟩]).length = 2
      ∧ execute_research_plan [Except.error "x", Except.error "y"] = [] := by
  constructor
  · exact (research_fanout_counts
      [Except.ok ⟨"etf flows", 5⟩, Except.error "timeout", Except.ok ⟨"fed", 9⟩]).1.trans
      (by decide)
  · exact (research_fanout_counts [Except.error "x", Except.error "y"]).2 (by decide)

/-- C7 counterexample: a one-query plan whose single query fails makes
`execute_research_plan` return the empty collection as a normal result —
the function has no failure path, so the stage does not fail hard and
reports no `DataUnavailable`. -/
theorem all_queries_failed_returns_empty :
    execute_research_plan [Except.error "search provider down"] = [] := by
  rfl

/-! ## Trade executor (openai-agents-dca/binance_executor.py)

`execute_actions` loops over the actions; each iteration tries to place the
order (`_execute_limit_buy` / `_execute_limit_sell`, or raises on an
unknown type), catches every exception, and appends exactly one result
record.  The exchange is modelled by two oracles giving each order
placement's outcome. -/

structure OrderResp where
  orderId : ℕ
deriving DecidableEq

structure ExecResult where
  action : TradeAction
  success : Bool
  order : Option OrderResp
  error : Option String
deriving DecidableEq

structure ExecutionOutcome where
  success : Bool
  executed : ℕ
  failed : ℕ
  results : List ExecResult
deriving DecidableEq

/-- The dispatch inside the loop's `try`: buy, sell, or
`ValueError("Unknown action type")`. -/
def attemptAction (placeBuy placeSell : TradeAction → Except String OrderResp)
    (a : TradeAction) : Except String OrderResp :=
  if a.type = "PLACE_LIMIT_BUY" then placeBuy a
  else if a.type = "PLACE_LIMIT_SELL" then placeSell a
  else Except.error "Unknown action type"

/-- One loop iteration: the `try` body plus the `except` handler, producing
exactly one result record either way. -/
def execOne (placeBuy placeSell : TradeAction → Except String OrderResp)
    (a : TradeAction) : ExecResult :=
  match attemptAction placeBuy placeSell a with
  | Except.ok o => { action := a, success := true, order := some o, error := none }
  | Except.error e => { action := a, success := false, order := none, error := some e }

/-- Embeds `BinanceExecutor.execute_actions`: one result per action, counters for
successes and failures, overall `success = (failed == 0)`. -/
def execute_actions (placeBuy placeSell : TradeAction → Except String OrderResp)
    (actions : List TradeAction) : ExecutionOutcome :=
  { success := ((actions.map (execOne placeBuy placeSell)).filter
        (fun r => !r.success)).length == 0
    executed := ((actions.map (execOne placeBuy placeSell)).filter
        (fun r => r.success)).length
    failed := ((actions.map (execOne placeBuy placeSell)).filter
        (fun r => !r.success)).length
    results := actions.map (execOne placeBuy placeSell) }

/-! `DCASession.was_successful` (dca-simple/schemas.py): SKIP and HOLD
sessions are successful no-ops; a BUY session succeeds iff all its
execution results did. -/

inductive SessionType where
  | skip
  | hold
  | buy
deriving DecidableEq

structure SimpleExecutionResult where
  success : Bool
  asset : String
deriving DecidableEq

structure DCASession where
  sessionType : SessionType
  executionResults : List SimpleExecutionResult
deriving DecidableEq

/-- Embeds `DCASession.was_successful` -/
def was_successful (s : DCASession) : Bool :=
  if s.sessionType ≠ SessionType.buy then true
  else s.executionResults.all (fun r => r.success)

lemma execOne_action (placeBuy placeSell : TradeAction → Except String OrderResp)
    (a : TradeAction) : (execOne placeBuy placeSell a).action = a := by
  unfold execOne
  cases attemptAction placeBuy placeSell a <;> rfl

/-- C8: the executor records exactly one `ExecutionResult` per action, in
order — a failed submission never aborts or skips the remaining actions —
its overall success flag holds iff every per-action result succeeded, and
`was_successful` counts non-BUY sessions as successful no-ops while a BUY
session succeeds iff all its results did. -/
theorem executor_one_result_per_action
    (placeBuy placeSell : TradeAction → Except String OrderResp)
    (actions : List TradeAction) (s : DCASession) :
    (execute_actions placeBuy placeSell actions).results.length = actions.length
      ∧ (∀ i : ℕ, ((execute_actions placeBuy placeSell actions).results.get? i).map
            ExecResult.action = actions.get? i)
      ∧ ((execute_actions placeBuy placeSell actions).success = true
          ↔ ∀ r ∈ (execute_actions placeBuy placeSell actions).results, r.success = true)
      ∧ (s.sessionType ≠ SessionType.buy → was_successful s = true)
      ∧ (s.sessionType = SessionType.buy →
          was_successful s = s.executionResults.all (fun r => r.success)) := by
  refine ⟨by simp [execute_actions], ?_, ?_, ?_, ?_⟩
  · intro i
    simp only [execute_actions, List.get?_map]
    cases h : actions.get? i with
    | none => rfl
    | some a => simp [execOne_action]
  · simp only [execute_actions, beq_iff_eq, List.length_eq_zero, List.filter_eq_nil_iff]
    constructor
    · intro h r hr
      have := h r hr
      simpa using this
    · intro h r hr
      simp [h r hr]
  · intro h
    unfold was_successful
    rw [if_pos h]
  · intro h
    unfold was_successful
    rw [if_neg (by simp [h])]

/-- Concrete oracles for the C8 witness: buys succeed with order id 1001,
sells are rejected by the exchange. -/
def exPlaceBuy : TradeAction → Except String OrderResp :=
  fun _ => Except.ok { orderId := 1001 }

def exPlaceSell : TradeAction → Except String OrderResp :=
  fun _ => Except.error "Binance API error"

/-- A buy then a sell, so one submission fails while the other proceeds. -/
def exExecActions : List TradeAction :=
  [ { type := "PLACE_LIMIT_BUY", asset := "BTCUSDT", price := 49000, amount_usd := 100 },
    { type := "PLACE_LIMIT_SELL", asset := "BTCUSDT", price := 51000, amount_usd := 100 } ]

/-- C8 witness: with one failing submission among two actions, two results
are still recorded, and a HOLD session is a successful no-op. -/
theorem executor_one_result_per_action_witness :
    (execute_actions exPlaceBuy exPlaceSell exExecActions).results.length = 2
      ∧ was_successful { sessionType := SessionType.hold, executionResults := [] } = true := by
  have h := executor_one_result_per_action exPlaceBuy exPlaceSell exExecActions
    { sessionType := SessionType.hold, executionResults := [] }
  exact ⟨h.1.trans rfl, h.2.2.2.1 (by decide)⟩

/-! ## Pipeline gate (openai-agents-dca/run_autonomous_dca.py)

Stage 4b of `AutonomousDCASystem.run`: the safety validator's verdict gates
stage 5.  On a failed validation the method returns a failure report at
once; `execute_actions` is reached only on a passing verdict with
`dry_run = False`.  The report's `forwarded` field records the argument of
the single `execute_actions` call site (`[]` when that call never runs). -/

structure PipelineReport where
  success : Bool
  failedStage : Option String
  errors : List VError
  forwarded : List TradeAction
  execution : Option ExecutionOutcome
deriving DecidableEq

/-- Stages 4b–5 of `AutonomousDCASystem.run`. -/
def runPipeline (v : Intelligence) (dryRun : Bool)
    (placeBuy placeSell : TradeAction → Except String OrderResp)
    (actions : List TradeAction) : PipelineReport :=
  if (validateTradingDecision v actions).1 then
    if dryRun then
      { success := true, failedStage := none, errors := [], forwarded := [],
        execution := some { success := true, executed := 0, failed := 0, results := [] } }
    else
      { success := (execute_actions placeBuy placeSell actions).success,
        failedStage := none, errors := [], forwarded := actions,
        execution := some (execute_actions placeBuy placeSell actions) }
  else
    { success := false, failedStage := some "validation",
      errors := (validateTradingDecision v actions).2, forwarded := [],
      execution := none }

/-- C2: whenever validation of the decision's actions fails, the run
records the failed outcome and terminates — no action is forwarded to the
executor, no execution result exists, and this holds unconditionally,
whatever the decision (Selector output) or the dry-run flag. -/
theorem tripwire_blocks_executor (v : Intelligence) (dryRun : Bool)
    (placeBuy placeSell : TradeAction → Except String OrderResp)
    (actions : List TradeAction)
    (h : (validateTradingDecision v actions).1 = false) :
    (runPipeline v dryRun placeBuy placeSell actions).forwarded = []
      ∧ (runPipeline v dryRun placeBuy placeSell actions).execution = none
      ∧ (runPipeline v dryRun placeBuy placeSell actions).success = false
      ∧ (runPipeline v dryRun placeBuy placeSell actions).failedStage = some "validation" := by
  unfold runPipeline
  rw [h]
  simp

/-- A proposed action below the minimum order value, so validation fails. -/
def exSmallActions : List TradeAction :=
  [ { type := "PLACE_LIMIT_BUY", asset := "BTCUSDT", price := 49000, amount_usd := 5 } ]

/-- C2 witness: with a decision failing validation (a 5-USD order), the run
forwards nothing to the executor and records the validation failure. -/
theorem tripwire_blocks_executor_witness :
    (runPipeline exIntel false exPlaceBuy exPlaceSell exSmallActions).forwarded = []
      ∧ (runPipeline exIntel false exPlaceBuy exPlaceSell exSmallActions).execution = none := by
  have h := tripwire_blocks_executor exIntel false exPlaceBuy exPlaceSell exSmallActions
    (by norm_num [validateTradingDecision, actionErrorsFrom, perActionChecks,
      validateOrderCount, validatePrice, priceChecksAgainst, validateOrderSize,
      validateTotalExposure, exposurePct, totalUSD, validateBalance, neededUSD,
      countOrdersForAsset, exIntel, exSmallActions, MAX_ORDERS_PER_ASSET,
      MAX_TOTAL_ORDERS, MAX_EXPOSURE_PCT, PRICE_DEVIATION_PCT, MIN_ORDER_VALUE_USD,
      typeMentionsBuy, strContains, strContainsAux, isPrefixList])
  exact ⟨h.1, h.2.1⟩

/-! ## Simple DCA session (dca-simple/utils.py, dca_simple.py)

`validate_deployment_amounts` checks the decision's EUR amounts against the
deployment cap, the balance and the per-asset minimum; `run_dca_session`
runs it at step 4 and raises before step 5 (order placement) when it
fails.  Market-order placement is abstracted to the list of symbols whose
orders step 5 submits. -/

def MIN_EUR_THRESHOLD : ℚ := 10

def MIN_ORDER_SIZE : ℚ := 10

inductive DeployError where
  | exceedsMaxDeploy
  | exceedsBalance
  | btcBelowMin
  | adaBelowMin
  | noAllocation
deriving DecidableEq

/-- Embeds `validate_deployment_amounts` (dca-simple/utils.py): the if-chain in
source order, returning `(is_valid, reason)`. -/
def validate_deployment_amounts (btcAmount adaAmount maxDeploy eurBalance : ℚ) :
    Bool × Option DeployError :=
  if maxDeploy < btcAmount + adaAmount then (false, some DeployError.exceedsMaxDeploy)
  else if eurBalance < btcAmount + adaAmount then (false, some DeployError.exceedsBalance)
  else if 0 < btcAmount ∧ btcAmount < MIN_ORDER_SIZE then (false, some DeployError.btcBelowMin)
  else if 0 < adaAmount ∧ adaAmount < MIN_ORDER_SIZE then (false, some DeployError.adaBelowMin)
  else if 0 < btcAmount + adaAmount ∧ btcAmount = 0 ∧ adaAmount = 0 then
    (false, some DeployError.noAllocation)
  else (true, none)

/-- Embeds `SimpleDCADecision`: the two EUR allocations (its `is_hold` property is
`btc_amount + ada_amount == 0`). -/
structure SimpleDecision where
  btc_amount : ℚ
  ada_amount : ℚ
deriving DecidableEq

/-- How a cycle of `run_dca_session` ends: a persisted session with the
orders step 5 placed, or the `ValueError` raised on invalid amounts. -/
inductive SessionOutcome where
  | completed (sessionType : SessionType) (ordersPlaced : List String)
  | aborted (reason : Option DeployError)
deriving DecidableEq

/-- Embeds `run_dca_session` (dca-simple/dca_simple.py), steps 1–5: low-balance
skips, amount validation (raising on failure), the HOLD short-circuit, and
the BUY path placing a market order per asset meeting the minimum. -/
def run_dca_session (eurBalance maxDeploy : ℚ) (decision : SimpleDecision) :
    SessionOutcome :=
  if eurBalance < MIN_EUR_THRESHOLD then SessionOutcome.completed SessionType.skip []
  else if eurBalance < 20 ∧ maxDeploy < MIN_ORDER_SIZE then
    SessionOutcome.completed SessionType.skip []
  else if (validate_deployment_amounts decision.btc_amount decision.ada_amount
      maxDeploy eurBalance).1 = false then
    SessionOutcome.aborted
      (validate_deployment_amounts decision.btc_amount decision.ada_amount
        maxDeploy eurBalance).2
  else if decision.btc_amount + decision.ada_amount = 0 then
    SessionOutcome.completed SessionType.hold []
  else
    SessionOutcome.completed SessionType.buy
      ((if MIN_ORDER_SIZE ≤ decision.btc_amount then ["BTCEUR"] else [])
        ++ (if MIN_ORDER_SIZE ≤ decision.ada_amount then ["ADAEUR"] else []))

lemma validate_deployment_true_iff (b a m e : ℚ) :
    (validate_deployment_amounts b a m e).1 = true
      ↔ b + a ≤ m ∧ b + a ≤ e
          ∧ (0 < b → MIN_ORDER_SIZE ≤ b) ∧ (0 < a → MIN_ORDER_SIZE ≤ a) := by
  constructor
  · intro hv
    have h1 : ¬m < b + a := by
      intro hc
      rw [validate_deployment_amounts, if_pos hc] at hv
      simp at hv
    have h2 : ¬e < b + a := by
      intro hc
      rw [validate_deployment_amounts, if_neg h1, if_pos hc] at hv
      simp at hv
    have h3 : ¬(0 < b ∧ b < MIN_ORDER_SIZE) := by
      intro hc
      rw [validate_deployment_amounts, if_neg h1, if_neg h2, if_pos hc] at hv
      simp at hv
    have h4 : ¬(0 < a ∧ a < MIN_ORDER_SIZE) := by
      intro hc
      rw [validate_deployment_amounts, if_neg h1, if_neg h2, if_neg h3, if_pos hc] at hv
      simp at hv
    exact ⟨not_lt.mp h1, not_lt.mp h2,
      fun hb => not_lt.mp fun hlt => h3 ⟨hb, hlt⟩,
      fun ha => not_lt.mp fun hlt => h4 ⟨ha, hlt⟩⟩
  · rintro ⟨c1, c2, c3, c4⟩
    have hn3 : ¬(0 < b ∧ b < MIN_ORDER_SIZE) := by
      rintro ⟨hb, hlt⟩
      exact absurd (c3 hb) (not_le.mpr hlt)
    have hn4 : ¬(0 < a ∧ a < MIN_ORDER_SIZE) := by
      rintro ⟨ha, hlt⟩
      exact absurd (c4 ha) (not_le.mpr hlt)
    have hn5 : ¬(0 < b + a ∧ b = 0 ∧ a = 0) := by
      rintro ⟨hpos, hb0, ha0⟩
      rw [hb0, ha0] at hpos
      norm_num at hpos
    rw [validate_deployment_amounts, if_neg (not_lt.mpr c1), if_neg (not_lt.mpr c2),
      if_neg hn3, if_neg hn4, if_neg hn5]

/-- C9: a session only reaches order placement after its amounts passed
validation — total at most the deployment cap, total at most the balance,
each positive per-asset amount at least the minimum order size — and when
validation fails the cycle aborts (raises) carrying the validation reason,
before any order is placed. -/
theorem session_validates_before_orders (eurBalance maxDeploy : ℚ) (d : SimpleDecision) :
    (∀ st orders,
        run_dca_session eurBalance maxDeploy d = SessionOutcome.completed st orders →
        orders ≠ [] →
          (validate_deployment_amounts d.btc_amount d.ada_amount maxDeploy eurBalance).1 = true
            ∧ d.btc_amount + d.ada_amount ≤ maxDeploy
            ∧ d.btc_amount + d.ada_amount ≤ eurBalance
            ∧ (0 < d.btc_amount → MIN_ORDER_SIZE ≤ d.btc_amount)
            ∧ (0 < d.ada_amount → MIN_ORDER_SIZE ≤ d.ada_amount))
      ∧ ((validate_deployment_amounts d.btc_amount d.ada_amount maxDeploy eurBalance).1 = false →
          ¬eurBalance < MIN_EUR_THRESHOLD →
          ¬(eurBalance < 20 ∧ maxDeploy < MIN_ORDER_SIZE) →
          run_dca_session eurBalance maxDeploy d =
            SessionOutcome.aborted
              (validate_deployment_amounts d.btc_amount d.ada_amount maxDeploy eurBalance).2) := by
  constructor
  · intro st orders hrun hne
    by_cases hskip1 : eurBalance < MIN_EUR_THRESHOLD
    · rw [run_dca_session, if_pos hskip1] at hrun
      injection hrun with _ horders
      exact absurd horders.symm hne
    by_cases hskip2 : eurBalance < 20 ∧ maxDeploy < MIN_ORDER_SIZE
    · rw [run_dca_session, if_neg hskip1, if_pos hskip2] at hrun
      injection hrun with _ horders
      exact absurd horders.symm hne
    by_cases hval : (validate_deployment_amounts d.btc_amount d.ada_amount
        maxDeploy eurBalance).1 = false
    · rw [run_dca_session, if_neg hskip1, if_neg hskip2, if_pos hval] at hrun
      cases hrun
    cases hb : (validate_deployment_amounts d.btc_amount d.ada_amount maxDeploy eurBalance).1 with
    | false => exact absurd hb hval
    | true =>
        have hconj :=
          (validate_deployment_true_iff d.btc_amount d.ada_amount maxDeploy eurBalance).mp hb
        exact ⟨rfl, hconj.1, hconj.2.1, hconj.2.2.1, hconj.2.2.2⟩
  · intro hvfalse hns1 hns2
    unfold run_dca_session
    rw [if_neg hns1, if_neg hns2, if_pos hvfalse]

/-- C9 witness: amounts 15 + 10 within cap 25 and balance 100 pass and the
session buys; amounts 30 + 0 exceed the cap 25 and the cycle aborts with
the cap violation before any order. -/
theorem session_validates_before_orders_witness :
    ((validate_deployment_amounts 15 10 25 100).1 = true
        ∧ (15 : ℚ) + 10 ≤ 25 ∧ (15 : ℚ) + 10 ≤ 100
        ∧ ((0 : ℚ) < 15 → MIN_ORDER_SIZE ≤ 15) ∧ ((0 : ℚ) < 10 → MIN_ORDER_SIZE ≤ 10))
      ∧ run_dca_session 100 25 ⟨30, 0⟩ =
          SessionOutcome.aborted (validate_deployment_amounts 30 0 25 100).2 := by
  constructor
  · exact (session_validates_before_orders 100 25 ⟨15, 10⟩).1 SessionType.buy
      ["BTCEUR", "ADAEUR"]
      (by norm_num [run_dca_session, validate_deployment_amounts, MIN_EUR_THRESHOLD,
        MIN_ORDER_SIZE])
      (by simp)
  · exact (session_validates_before_orders 100 25 ⟨30, 0⟩).2
      (by norm_num [validate_deployment_amounts])
      (by norm_num [MIN_EUR_THRESHOLD])
      (by norm_num [MIN_ORDER_SIZE])

end DCA
